import Mathlib

set_option maxRecDepth 4000

/-!
Verification of the BN254 scalar-field implementation in `src/fr_sp1.rs`
against its natural-language specification.

The Rust type `Fr(pub [u32; 8])` is embedded as a structure of eight `Nat`
fields, one per 32-bit limb (`l0` least significant).  Machine arithmetic is
rendered with explicit `% 2^w` reductions.  The `subtle` crate's `Choice` is
rendered as `Bool` and `CtOption<Fr>` as `Option Fr` (present iff the choice
bit is 1).  The host instruction `syscall_bn254_scalar_muladd` and the
`subtle` per-limb conditional move are external to the repository and are
modelled from the specification, as documented on their definitions; every
other definition is a direct translation of the Rust source.
-/

/-- The BN254 scalar field element: eight 32-bit little-endian limbs,
mirroring `pub struct Fr(pub [u32; 8])`. -/
structure Fr where
  l0 : Nat
  l1 : Nat
  l2 : Nat
  l3 : Nat
  l4 : Nat
  l5 : Nat
  l6 : Nat
  l7 : Nat
deriving DecidableEq

/-- The `MODULUS` limb constant exactly as written in `src/fr_sp1.rs` lines 8-17. -/
def MODULUS : Fr :=
  ⟨0x43E1F593, 0x2833E848, 0x81585D2, 0xB85045B6, 0xE131A029, 0x30644E72, 0x0, 0x0⟩

/-- The integer value of a limb array, little-endian base 2^32. -/
def Fr.toNat (x : Fr) : Nat :=
  x.l0 + 2^32 * x.l1 + 2^64 * x.l2 + 2^96 * x.l3 +
  2^128 * x.l4 + 2^160 * x.l5 + 2^192 * x.l6 + 2^224 * x.l7

/-- Well-formedness of the embedding: every limb fits in a `u32`. -/
def Fr.wf (x : Fr) : Prop :=
  x.l0 < 2^32 ∧ x.l1 < 2^32 ∧ x.l2 < 2^32 ∧ x.l3 < 2^32 ∧
  x.l4 < 2^32 ∧ x.l5 < 2^32 ∧ x.l6 < 2^32 ∧ x.l7 < 2^32

instance (x : Fr) : Decidable x.wf := by
  unfold Fr.wf
  infer_instance

/-- Modelled from the spec: the 254-bit prime scalar modulus `M` given in
spec section 8 (it also matches the `PrimeField::MODULUS` string constant at
`src/fr_sp1.rs` line 334).  This is the modulus of the host field
instruction, which lives outside this repository. -/
def bn254ScalarModulus : Nat :=
  21888242871839275222246405745257275088548364400416034343698204186575808495617

/-- Writes a natural number below 2^256 back into the eight-limb layout;
part of the model of the host instruction's result write-back. -/
def natToFr (n : Nat) : Fr :=
  ⟨n % 2^32, n / 2^32 % 2^32, n / 2^64 % 2^32, n / 2^96 % 2^32,
   n / 2^128 % 2^32, n / 2^160 % 2^32, n / 2^192 % 2^32, n / 2^224 % 2^32⟩

/-- Modelled from the spec: the host-provided fused field instruction
`sp1_intrinsics::bn254::syscall_bn254_scalar_muladd`, which is not part of
this repository.  Spec section 4.3 documents it as
`muladd(a, b, c) = a*b + c mod p` over the scalar modulus `p`; operands are
eight-limb little-endian arrays and the result is written back canonically. -/
def muladd (a b c : Fr) : Fr :=
  natToFr ((a.toNat * b.toNat + c.toNat) % bn254ScalarModulus)

/-- `Fr::zero()` from the source. -/
def Fr.zero : Fr := ⟨0, 0, 0, 0, 0, 0, 0, 0⟩

/-- `Fr::one()` from the source. -/
def Fr.one : Fr := ⟨1, 0, 0, 0, 0, 0, 0, 0⟩

/-- `Neg for &Fr` from the source: `muladd` with the coefficient array
`[0xFFFFFFFF; 8]` and addend zero. -/
def Fr.neg (x : Fr) : Fr :=
  muladd ⟨0xFFFFFFFF, 0xFFFFFFFF, 0xFFFFFFFF, 0xFFFFFFFF,
          0xFFFFFFFF, 0xFFFFFFFF, 0xFFFFFFFF, 0xFFFFFFFF⟩ x Fr.zero

/-- `Add<&Fr> for &Fr` from the source: `muladd(one, self, rhs)`. -/
def Fr.add (a b : Fr) : Fr := muladd Fr.one a b

/-- `Mul<&Fr> for &Fr` from the source: `muladd(self, rhs, zero)`. -/
def Fr.mul (a b : Fr) : Fr := muladd a b Fr.zero

/-- `Field::square` from the source: `muladd(self, self, zero)`. -/
def Fr.square (a : Fr) : Fr := muladd a a Fr.zero

/-- `ConstantTimeEq::ct_eq` from the source: each limb pair is XORed, the
XOR is cast `as u8` (keeping only the low byte), the bytes are ORed into an
accumulator, and the result is "equal" iff the accumulator is zero. -/
def Fr.ct_eq (x y : Fr) : Bool :=
  ((x.l0 ^^^ y.l0) % 2^8 ||| (x.l1 ^^^ y.l1) % 2^8 |||
   (x.l2 ^^^ y.l2) % 2^8 ||| (x.l3 ^^^ y.l3) % 2^8 |||
   (x.l4 ^^^ y.l4) % 2^8 ||| (x.l5 ^^^ y.l5) % 2^8 |||
   (x.l6 ^^^ y.l6) % 2^8 ||| (x.l7 ^^^ y.l7) % 2^8) == 0

/-- `Field::invert` from the source: the value is `muladd` with coefficient
`[0xFFFFFFFF; 8]` (the same computation as `neg`), and the presence flag is
`!self.ct_eq(&zero)`; rendered as an `Option` that is `some` iff the flag
is set. -/
def Fr.invert (x : Fr) : Option Fr :=
  if Fr.ct_eq x Fr.zero then none
  else some (muladd ⟨0xFFFFFFFF, 0xFFFFFFFF, 0xFFFFFFFF, 0xFFFFFFFF,
                     0xFFFFFFFF, 0xFFFFFFFF, 0xFFFFFFFF, 0xFFFFFFFF⟩ x Fr.zero)

/-- `sbb_u32` from the source: 64-bit wrapping subtract of `b + borrow`
from `a`, returning the low 32 bits and the high 32 bits. -/
def sbb_u32 (a b borrow : Nat) : Nat × Nat :=
  let ret := (a + 2^64 - (b + borrow)) % 2^64
  (ret % 2^32, (ret >>> 32) % 2^32)

/-- `u32::from_le_bytes` on the four bytes starting at index `k`;
bytes are modelled as a list of naturals below 256. -/
def load_le4 (bytes : List Nat) (k : Nat) : Nat :=
  bytes.getD k 0 + 2^8 * bytes.getD (k+1) 0 +
  2^16 * bytes.getD (k+2) 0 + 2^24 * bytes.getD (k+3) 0

/-- `Fr::from_bytes` from the source: load eight little-endian limbs, run
the `sbb_u32` borrow chain against `MODULUS`, and return the element with
presence flag `(borrow as u8) & 1`. -/
def Fr.from_bytes (bytes : List Nat) : Option Fr :=
  let tmp : Fr := ⟨load_le4 bytes 0, load_le4 bytes 4, load_le4 bytes 8,
                   load_le4 bytes 12, load_le4 bytes 16, load_le4 bytes 20,
                   load_le4 bytes 24, load_le4 bytes 28⟩
  let r0 := sbb_u32 tmp.l0 MODULUS.l0 0
  let r1 := sbb_u32 tmp.l1 MODULUS.l1 r0.2
  let r2 := sbb_u32 tmp.l2 MODULUS.l2 r1.2
  let r3 := sbb_u32 tmp.l3 MODULUS.l3 r2.2
  let r4 := sbb_u32 tmp.l4 MODULUS.l4 r3.2
  let r5 := sbb_u32 tmp.l5 MODULUS.l5 r4.2
  let r6 := sbb_u32 tmp.l6 MODULUS.l6 r5.2
  let r7 := sbb_u32 tmp.l7 MODULUS.l7 r6.2
  let is_some := (r7.2 % 2^8) &&& 1
  if is_some = 1 then some tmp else none

/-- `u32::to_le_bytes` from `Fr::to_repr`'s loop body. -/
def u32_le_bytes (w : Nat) : List Nat :=
  [w % 2^8, (w >>> 8) % 2^8, (w >>> 16) % 2^8, (w >>> 24) % 2^8]

/-- `PrimeField::to_repr` from the source: the eight limbs written
little-endian into 32 bytes. -/
def Fr.to_repr (x : Fr) : List Nat :=
  u32_le_bytes x.l0 ++ u32_le_bytes x.l1 ++ u32_le_bytes x.l2 ++ u32_le_bytes x.l3 ++
  u32_le_bytes x.l4 ++ u32_le_bytes x.l5 ++ u32_le_bytes x.l6 ++ u32_le_bytes x.l7

/-- The little-endian integer value of a byte string. -/
def leNat (bytes : List Nat) : Nat :=
  bytes.foldr (fun b acc => b + 2^8 * acc) 0

/-- `Fr::from_raw` from the source: each 64-bit input limb is split into two
32-bit limbs with `& 0xffffffff` and `>> 32`, stored verbatim. -/
def Fr.from_raw (a b c d : Nat) : Fr :=
  ⟨a &&& 0xffffffff, (a >>> 32) &&& 0xffffffff,
   b &&& 0xffffffff, (b >>> 32) &&& 0xffffffff,
   c &&& 0xffffffff, (c >>> 32) &&& 0xffffffff,
   d &&& 0xffffffff, (d >>> 32) &&& 0xffffffff⟩

/-- `From<u64> for Fr` from the source: low and high 32-bit halves into the
first two limbs. -/
def Fr.fromU64 (val : Nat) : Fr :=
  ⟨val % 2^32, (val >>> 32) % 2^32, 0, 0, 0, 0, 0, 0⟩

/-- `PrimeField::TWO_INV` from the source: `Fr::from_raw([2, 0, 0, 0])`. -/
def Fr.TWO_INV : Fr := Fr.from_raw 2 0 0 0

/-- `PrimeField::S` from the source. -/
def Fr.S : Nat := 28

/-- `PrimeField::ROOT_OF_UNITY` from the source. -/
def Fr.ROOT_OF_UNITY : Fr :=
  Fr.from_raw 0xd35d438dc58f0d9d 0x0a78eb28f5c70b3d 0x666ea36f7879462c 0x0e0a77c19a07df2f

/-- `n`-fold iteration of the code's `square`, computing `x^(2^n)` the way
exponentiation by a power of two is performed with this backend. -/
def iterSquare : Nat → Fr → Fr
  | 0, x => x
  | n + 1, x => iterSquare n (Fr.square x)

/-- Modelled from the spec: the `subtle` crate's `u32::conditional_select`
(an external dependency), the branchless per-limb conditional move of spec
section 4.5: a mask of all ones is built from the selector and the result is
`a ^ (mask & (a ^ b))`. -/
def u32_conditional_select (a b : Nat) (choice : Bool) : Nat :=
  let mask := if choice then 0xFFFFFFFF else 0
  a ^^^ (mask &&& (a ^^^ b))

/-- `Fr::conditional_select` from the source: `u32::conditional_select`
applied to each of the eight limb pairs. -/
def Fr.conditional_select (a b : Fr) (choice : Bool) : Fr :=
  ⟨u32_conditional_select a.l0 b.l0 choice, u32_conditional_select a.l1 b.l1 choice,
   u32_conditional_select a.l2 b.l2 choice, u32_conditional_select a.l3 b.l3 choice,
   u32_conditional_select a.l4 b.l4 choice, u32_conditional_select a.l5 b.l5 choice,
   u32_conditional_select a.l6 b.l6 choice, u32_conditional_select a.l7 b.l7 choice⟩

/-- The 32-byte little-endian encoding of the scalar modulus, as used by the
round-trip test of spec section 8. -/
def modulusBytes : List Nat :=
  [1, 0, 0, 240, 147, 245, 225, 67, 145, 112, 185, 121, 72, 232, 51, 40,
   93, 88, 129, 129, 182, 69, 80, 184, 41, 160, 49, 225, 114, 78, 100, 48]

/-! ## Helper lemmas -/

theorem and_mask32 (n : Nat) : n &&& 0xffffffff = n % 2^32 := by
  simpa using Nat.and_pow_two_sub_one_eq_mod n 32

theorem u32_conditional_select_false (a b : Nat) :
    u32_conditional_select a b false = a := by
  simp [u32_conditional_select]

theorem u32_conditional_select_true (a b : Nat) (ha : a < 2^32) (hb : b < 2^32) :
    u32_conditional_select a b true = b := by
  have hxor : a ^^^ b < 2^32 := Nat.xor_lt_two_pow ha hb
  have hmask : (0xFFFFFFFF : Nat) &&& (a ^^^ b) = a ^^^ b := by
    rw [Nat.and_comm, and_mask32, Nat.mod_eq_of_lt hxor]
  simp only [u32_conditional_select, if_pos, hmask]
  rw [← Nat.xor_assoc, Nat.xor_self, Nat.zero_xor]

theorem from_raw_split (a : Nat) (ha : a < 2^64) :
    (a &&& 0xffffffff) + 2^32 * ((a >>> 32) &&& 0xffffffff) = a := by
  rw [and_mask32, and_mask32, Nat.shiftRight_eq_div_pow]
  omega

/-! ## Claim theorems -/

/-- Claim C1: the claim states that for every canonical nonzero `x`,
`invert(x)` is present with value `v` satisfying `x * v == 1`.  The code's
`invert` instead performs the same `muladd` as negation (coefficient
`[0xFFFFFFFF; 8]`), so at `x = 1` it returns the element `(2^256 - 1) mod M`,
whose product with `1` is not `1`. -/
theorem invert_one_not_inverse :
    Fr.invert Fr.one =
      some ⟨1342177274, 2895524892, 2673921321, 922515093,
            2021213742, 1718526831, 2584207151, 235567041⟩ ∧
    Fr.mul Fr.one ⟨1342177274, 2895524892, 2673921321, 922515093,
                   2021213742, 1718526831, 2584207151, 235567041⟩ ≠ Fr.one ∧
    (⟨1342177274, 2895524892, 2673921321, 922515093,
      2021213742, 1718526831, 2584207151, 235567041⟩ : Fr).toNat =
      (2^256 - 1) % bn254ScalarModulus := by
  refine ⟨by decide, by decide, by decide⟩

/-- Claim C2: the claim states that `ct_eq(a, b)` is "not equal" whenever
`a` and `b` differ in any limb.  The code casts each limb XOR `as u8` before
ORing, so limbs differing only above the low byte are invisible: the
elements `0` and `⟨256,0,...,0⟩` differ yet compare "equal" (while
`ct_eq(a, a)` is indeed always "equal"). -/
theorem ct_eq_misses_high_byte_difference :
    Fr.ct_eq Fr.zero ⟨256, 0, 0, 0, 0, 0, 0, 0⟩ = true ∧
    Fr.zero ≠ (⟨256, 0, 0, 0, 0, 0, 0, 0⟩ : Fr) ∧
    Fr.ct_eq Fr.zero Fr.zero = true := by
  refine ⟨by decide, by decide, by decide⟩

/-- Claim C3: the claim states `TWO_INV * Fr::from(2) == Fr::one()`.  The
code defines `TWO_INV = Fr::from_raw([2, 0, 0, 0])`, i.e. the element `2`
itself, so the product is `4`, not `1`. -/
theorem TWO_INV_times_two_ne_one :
    Fr.mul Fr.TWO_INV (Fr.fromU64 2) = (⟨4, 0, 0, 0, 0, 0, 0, 0⟩ : Fr) ∧
    Fr.mul Fr.TWO_INV (Fr.fromU64 2) ≠ Fr.one := by
  refine ⟨by decide, by decide⟩

/-- Claim C4: the claim states `invert(x)` is empty iff `x` is the additive
identity.  The presence flag is `!ct_eq(x, 0)`, and `ct_eq` only inspects
the low byte of each limb, so the nonzero canonical element
`⟨256,0,...,0⟩` is wrongly reported empty. -/
theorem invert_empty_on_nonzero :
    (⟨256, 0, 0, 0, 0, 0, 0, 0⟩ : Fr) ≠ Fr.zero ∧
    (⟨256, 0, 0, 0, 0, 0, 0, 0⟩ : Fr).toNat < bn254ScalarModulus ∧
    Fr.invert ⟨256, 0, 0, 0, 0, 0, 0, 0⟩ = none := by
  refine ⟨by decide, by decide, by decide⟩

/-- Claim C5: the claim states `a + (-a) == 0` for every canonical `a`.
The code's negation multiplies by the limb array `[0xFFFFFFFF; 8]`, whose
integer value `2^256 - 1` is not congruent to `-1` modulo the scalar
modulus, so already `1 + (-1)` equals `2^256 mod M ≠ 0`. -/
theorem add_neg_one_ne_zero :
    Fr.add Fr.one (Fr.neg Fr.one) ≠ Fr.zero ∧
    (Fr.add Fr.one (Fr.neg Fr.one)).toNat = 2^256 % bn254ScalarModulus := by
  refine ⟨by decide, by decide⟩

/-- Claim C6: the claim states `ROOT_OF_UNITY^(2^S) == 1` with `S = 28`.
Squaring the code's `ROOT_OF_UNITY` constant 28 times (computing
`ROOT_OF_UNITY^(2^28)` with the code's multiplication) does not yield one,
so the published constant does not have multiplicative order `2^28`. -/
theorem root_of_unity_pow_two_pow_S_ne_one :
    Fr.S = 28 ∧
    Fr.ROOT_OF_UNITY.toNat < bn254ScalarModulus ∧
    iterSquare 28 Fr.ROOT_OF_UNITY ≠ Fr.one := by
  refine ⟨by decide, by decide, by decide⟩

/-- Claim C7: the claim states `from_bytes` is present iff the little-endian
value of the bytes is below the modulus, and in particular that the
modulus's own encoding is rejected.  `modulusBytes` is exactly the 32-byte
little-endian encoding of the scalar modulus, yet the code's borrow chain
(run against its corrupted `MODULUS` limb constant) accepts it. -/
theorem from_bytes_accepts_modulus_encoding :
    leNat modulusBytes = bn254ScalarModulus ∧
    modulusBytes.length = 32 ∧
    (Fr.from_bytes modulusBytes).isSome = true := by
  refine ⟨by decide, by decide, by decide⟩

/-- Claim C8: the claim states `from_bytes(to_repr(x))` is present and equal
to `x` for every canonical `x`.  The element whose limbs equal the code's
`MODULUS` constant is canonical (its value is far below the scalar modulus,
because the constant is corrupted), yet decoding its own encoding returns
empty: the borrow chain subtracts to exactly zero and the presence bit is
the borrow's low bit, `0`. -/
theorem round_trip_fails_on_canonical_element :
    MODULUS.toNat < bn254ScalarModulus ∧
    MODULUS.wf ∧
    Fr.from_bytes (Fr.to_repr MODULUS) = none := by
  refine ⟨by decide, by decide, by decide⟩

/-- Claim C9: for all well-formed field elements `a` and `b`,
`conditional_select(a, b, false) = a` and `conditional_select(a, b, true) = b`. -/
theorem conditional_select_spec (a b : Fr) (ha : a.wf) (hb : b.wf) :
    Fr.conditional_select a b false = a ∧ Fr.conditional_select a b true = b := by
  obtain ⟨ha0, ha1, ha2, ha3, ha4, ha5, ha6, ha7⟩ := ha
  obtain ⟨hb0, hb1, hb2, hb3, hb4, hb5, hb6, hb7⟩ := hb
  constructor
  · show (⟨_, _, _, _, _, _, _, _⟩ : Fr) = a
    rw [u32_conditional_select_false, u32_conditional_select_false,
        u32_conditional_select_false, u32_conditional_select_false,
        u32_conditional_select_false, u32_conditional_select_false,
        u32_conditional_select_false, u32_conditional_select_false]
  · show (⟨_, _, _, _, _, _, _, _⟩ : Fr) = b
    rw [u32_conditional_select_true a.l0 b.l0 ha0 hb0,
        u32_conditional_select_true a.l1 b.l1 ha1 hb1,
        u32_conditional_select_true a.l2 b.l2 ha2 hb2,
        u32_conditional_select_true a.l3 b.l3 ha3 hb3,
        u32_conditional_select_true a.l4 b.l4 ha4 hb4,
        u32_conditional_select_true a.l5 b.l5 ha5 hb5,
        u32_conditional_select_true a.l6 b.l6 ha6 hb6,
        u32_conditional_select_true a.l7 b.l7 ha7 hb7]

/-- Witness for claim C9 at concrete inputs. -/
theorem conditional_select_spec_witness :
    Fr.conditional_select ⟨1, 2, 3, 4, 5, 6, 7, 8⟩ ⟨9, 10, 11, 12, 13, 14, 15, 16⟩ false =
      (⟨1, 2, 3, 4, 5, 6, 7, 8⟩ : Fr) ∧
    Fr.conditional_select ⟨1, 2, 3, 4, 5, 6, 7, 8⟩ ⟨9, 10, 11, 12, 13, 14, 15, 16⟩ true =
      (⟨9, 10, 11, 12, 13, 14, 15, 16⟩ : Fr) :=
  conditional_select_spec ⟨1, 2, 3, 4, 5, 6, 7, 8⟩ ⟨9, 10, 11, 12, 13, 14, 15, 16⟩
    (by decide) (by decide)

/-- Claim C10: `from_raw` stores its four 64-bit limbs verbatim (each split
little-endian into two 32-bit limbs) with no reduction and no range check;
in particular, applied to the 64-bit limbs of the scalar modulus itself it
constructs an element whose stored value is the modulus — not strictly less
than it (nor less than the code's own `MODULUS` constant's value). -/
theorem from_raw_no_reduction :
    (∀ a b c d : Nat, a < 2^64 → b < 2^64 → c < 2^64 → d < 2^64 →
      (Fr.from_raw a b c d).toNat = a + 2^64 * b + 2^128 * c + 2^192 * d) ∧
    ((Fr.from_raw 0x43E1F593F0000001 0x2833E84879B97091
                  0xB85045B68181585D 0x30644E72E131A029).toNat = bn254ScalarModulus ∧
     ¬ (Fr.from_raw 0x43E1F593F0000001 0x2833E84879B97091
                    0xB85045B68181585D 0x30644E72E131A029).toNat < bn254ScalarModulus ∧
     ¬ (Fr.from_raw 0x43E1F593F0000001 0x2833E84879B97091
                    0xB85045B68181585D 0x30644E72E131A029).toNat < MODULUS.toNat) := by
  constructor
  · intro a b c d haa hbb hcc hdd
    show (a &&& 0xffffffff) + 2^32 * ((a >>> 32) &&& 0xffffffff) +
         2^64 * (b &&& 0xffffffff) + 2^96 * ((b >>> 32) &&& 0xffffffff) +
         2^128 * (c &&& 0xffffffff) + 2^160 * ((c >>> 32) &&& 0xffffffff) +
         2^192 * (d &&& 0xffffffff) + 2^224 * ((d >>> 32) &&& 0xffffffff) =
         a + 2^64 * b + 2^128 * c + 2^192 * d
    simp only [and_mask32, Nat.shiftRight_eq_div_pow]
    omega
  · refine ⟨by decide, by decide, by decide⟩

/-- Witness for claim C10's universal part at concrete inputs. -/
theorem from_raw_no_reduction_witness :
    (Fr.from_raw 5 6 7 8).toNat = 5 + 2^64 * 6 + 2^128 * 7 + 2^192 * 8 :=
  from_raw_no_reduction.1 5 6 7 8 (by decide) (by decide) (by decide) (by decide)
